import Mathlib

/-!
Verification of the severity-aggregation and guarded-remediation logic of the
`system-scripts` repository.

Part 1 embeds `HealthChecker._calculate_overall_status` (and its inner
`check_status` walker) from `src/scripts/common/health_checks.py`.

Part 2 embeds `NetworkRepair._attempt_fix` and the per-fix loop shared by the
`_fix_*` methods from `src/scripts/helpdesk/network_repair.py`.

Python values that can appear in a check-result tree are modelled by `Item`:
strings, numbers (and any other scalar collapses to `num`/`str`/`scalar`),
dictionaries (association lists of string keys) and lists.
-/

/-- A Python value inside a check-result tree: a string, a scalar
(number/bool/None — the aggregator treats all non-dict, non-list,
non-string values identically), a dict with string keys, or a list. -/
inductive Item where
  | str : String → Item
  | scalar : Int → Item
  | dict : List (String × Item) → Item
  | list : List Item → Item

/-- Python dict lookup `d[key]` / `key in d` on the association-list model
(first occurrence wins; a real Python dict has unique keys). -/
def dictGet (key : String) : List (String × Item) → Option Item
  | [] => none
  | (k, v) :: rest => if k = key then some v else dictGet key rest

/-- The severity table `status_priorities = {'critical': 3, 'error': 2,
'warning': 1, 'ok': 0}` with `.get(s, 0)` semantics: unknown labels map
to 0. -/
def statusPriorities (s : String) : Nat :=
  if s = "critical" then 3
  else if s = "error" then 2
  else if s = "warning" then 1
  else 0

/-- `status_priorities.get(item['status'], 0)` where the looked-up value
may be any Python value: only the four recognized strings give a nonzero
priority, everything else defaults to 0. -/
def statusPriorityOfItem : Item → Nat
  | .str s => statusPriorities s
  | _ => 0

mutual
/-- The inner walker `check_status` of `_calculate_overall_status`, with the
`nonlocal max_priority` accumulator rephrased as the maximum priority found
in the subtree (the Python code folds `max` over exactly these values).
A dict with a `status` key contributes that field's priority and is not
expanded further; a dict without one is expanded into its dict/list values
(scalar values contribute nothing, i.e. 0); a list is expanded elementwise;
scalars contribute 0. -/
def checkStatus : Item → Nat
  | .str _ => 0
  | .scalar _ => 0
  | .dict kvs =>
    match dictGet "status" kvs with
    | some v => statusPriorityOfItem v
    | none => checkStatusKVs kvs
  | .list xs => checkStatusList xs

/-- Maximum priority over the values of a dict without a `status` key. -/
def checkStatusKVs : List (String × Item) → Nat
  | [] => 0
  | (_, v) :: rest => max (checkStatus v) (checkStatusKVs rest)

/-- Maximum priority over the elements of a list node. -/
def checkStatusList : List Item → Nat
  | [] => 0
  | x :: rest => max (checkStatus x) (checkStatusList rest)
end

/-- The root keys skipped by `_calculate_overall_status`:
`if key not in ['timestamp', 'system_info', 'overall_status']`. -/
def excludedRootKeys : List String := ["timestamp", "system_info", "overall_status"]

/-- The top-level loop of `_calculate_overall_status`: fold `check_status`
over every root entry whose key is not excluded. -/
def calculateOverallPriority : List (String × Item) → Nat
  | [] => 0
  | (k, v) :: rest =>
    if k ∈ excludedRootKeys then calculateOverallPriority rest
    else max (checkStatus v) (calculateOverallPriority rest)

/-- The final loop `for status, priority in status_priorities.items(): if
priority == max_priority: return status` (dict iteration order: critical,
error, warning, ok) together with the unreachable `return 'ok'` fallback. -/
def priorityToStatus : Nat → String
  | 3 => "critical"
  | 2 => "error"
  | 1 => "warning"
  | _ => "ok"

/-- `HealthChecker._calculate_overall_status`, as a function of the root
result dict. -/
def calculateOverallStatus (results : List (String × Item)) : String :=
  priorityToStatus (calculateOverallPriority results)

/-- Sanity check: the empty result dict aggregates to `"ok"`. -/
lemma overallStatus_empty : calculateOverallStatus [] = "ok" := rfl

/-- Sanity check: the spec's scenario tree aggregates to `"critical"`. -/
lemma overallStatus_scenario :
    calculateOverallStatus
      [("disk", .dict [("status", .str "warning")]),
       ("mem", .dict [("status", .str "ok")]),
       ("svc", .dict [("a", .dict [("status", .str "critical")])])] = "critical" := rfl

/-- Sanity check: a status-carrying dict hides its nested statuses. -/
lemma overallStatus_status_is_leaf :
    calculateOverallStatus
      [("x", .dict [("status", .str "ok"),
                    ("nested", .dict [("status", .str "critical")])])] = "ok" := rfl

/-!
Label collection: the severities of every status-labeled dict node anywhere
in a tree, used to state that the aggregate equals the maximum over them.
-/

mutual
/-- Severities of every dict node carrying a `status` key, anywhere in the
tree (including inside status-carrying dicts, which the aggregator itself
does not enter). -/
def allLabels : Item → List Nat
  | .str _ => []
  | .scalar _ => []
  | .dict kvs =>
    (match dictGet "status" kvs with
     | some v => [statusPriorityOfItem v]
     | none => []) ++ allLabelsKVs kvs
  | .list xs => allLabelsList xs

/-- Labels occurring in the values of a dict. -/
def allLabelsKVs : List (String × Item) → List Nat
  | [] => []
  | (_, v) :: rest => allLabels v ++ allLabelsKVs rest

/-- Labels occurring in the elements of a list. -/
def allLabelsList : List Item → List Nat
  | [] => []
  | x :: rest => allLabels x ++ allLabelsList rest
end

mutual
/-- Well-formedness matching the spec's CheckResult data model: a dict
carrying its own `status` key is a leaf, so no labeled node may hide in
its values. On such trees the aggregator sees every label. -/
def statusLeafWF : Item → Bool
  | .str _ => true
  | .scalar _ => true
  | .dict kvs =>
    match dictGet "status" kvs with
    | some _ => decide (allLabelsKVs kvs = [])
    | none => statusLeafWFKVs kvs
  | .list xs => statusLeafWFList xs

/-- `statusLeafWF` over the values of a dict. -/
def statusLeafWFKVs : List (String × Item) → Bool
  | [] => true
  | (_, v) :: rest => statusLeafWF v && statusLeafWFKVs rest

/-- `statusLeafWF` over the elements of a list. -/
def statusLeafWFList : List Item → Bool
  | [] => true
  | x :: rest => statusLeafWF x && statusLeafWFList rest
end

/-- Labels visible from the root, skipping the excluded root keys just as
`_calculate_overall_status` does. -/
def allLabelsRoot : List (String × Item) → List Nat
  | [] => []
  | (k, v) :: rest =>
    if k ∈ excludedRootKeys then allLabelsRoot rest
    else allLabels v ++ allLabelsRoot rest

/-- `statusLeafWF` for every non-excluded root value. -/
def statusLeafWFRoot : List (String × Item) → Bool
  | [] => true
  | (k, v) :: rest =>
    if k ∈ excludedRootKeys then statusLeafWFRoot rest
    else statusLeafWF v && statusLeafWFRoot rest

lemma foldrMax_append (a b : List Nat) :
    (a ++ b).foldr max 0 = max (a.foldr max 0) (b.foldr max 0) := by
  induction a with
  | nil => simp
  | cons x xs ih => simp [ih, Nat.max_assoc]

lemma le_foldrMax {p : Nat} {l : List Nat} (h : p ∈ l) : p ≤ l.foldr max 0 := by
  induction l with
  | nil => cases h
  | cons x xs ih =>
    rcases List.mem_cons.mp h with rfl | h'
    · exact Nat.le_max_left _ _
    · exact le_trans (ih h') (Nat.le_max_right _ _)

mutual
/-- On well-formed trees the walker computes the maximum over all labels. -/
theorem checkStatus_eq_max_allLabels :
    ∀ t, statusLeafWF t = true → checkStatus t = (allLabels t).foldr max 0
  | .str _, _ => rfl
  | .scalar _, _ => rfl
  | .dict kvs, h => by
    cases hg : dictGet "status" kvs with
    | some v =>
      have hempty : allLabelsKVs kvs = [] := by
        have := h
        rw [statusLeafWF, hg] at this
        exact of_decide_eq_true this
      rw [checkStatus, hg, allLabels, hg, hempty]
      simp
    | none =>
      have h' : statusLeafWFKVs kvs = true := by
        have := h
        rwa [statusLeafWF, hg] at this
      rw [checkStatus, hg, allLabels, hg]
      simpa using checkStatusKVs_eq_max kvs h'
  | .list xs, h => by
    have h' : statusLeafWFList xs = true := by rwa [statusLeafWF] at h
    rw [checkStatus, allLabels]
    exact checkStatusList_eq_max xs h'

/-- Dict-values version of `checkStatus_eq_max_allLabels`. -/
theorem checkStatusKVs_eq_max :
    ∀ kvs, statusLeafWFKVs kvs = true → checkStatusKVs kvs = (allLabelsKVs kvs).foldr max 0
  | [], _ => rfl
  | (k, v) :: rest, h => by
    rw [statusLeafWFKVs, Bool.and_eq_true] at h
    rw [checkStatusKVs, allLabelsKVs, foldrMax_append,
      checkStatus_eq_max_allLabels v h.1, checkStatusKVs_eq_max rest h.2]

/-- List-elements version of `checkStatus_eq_max_allLabels`. -/
theorem checkStatusList_eq_max :
    ∀ xs, statusLeafWFList xs = true → checkStatusList xs = (allLabelsList xs).foldr max 0
  | [], _ => rfl
  | x :: rest, h => by
    rw [statusLeafWFList, Bool.and_eq_true] at h
    rw [checkStatusList, allLabelsList, foldrMax_append,
      checkStatus_eq_max_allLabels x h.1, checkStatusList_eq_max rest h.2]
end

lemma calculateOverallPriority_eq_max (r : List (String × Item))
    (h : statusLeafWFRoot r = true) :
    calculateOverallPriority r = (allLabelsRoot r).foldr max 0 := by
  induction r with
  | nil => rfl
  | cons kv rest ih =>
    obtain ⟨k, v⟩ := kv
    by_cases hk : k ∈ excludedRootKeys
    · rw [statusLeafWFRoot, if_pos hk] at h
      rw [calculateOverallPriority, if_pos hk, allLabelsRoot, if_pos hk, ih h]
    · rw [statusLeafWFRoot, if_neg hk, Bool.and_eq_true] at h
      rw [calculateOverallPriority, if_neg hk, allLabelsRoot, if_neg hk,
        foldrMax_append, checkStatus_eq_max_allLabels v h.1, ih h.2]

lemma statusPriorities_le_three (s : String) : statusPriorities s ≤ 3 := by
  unfold statusPriorities
  repeat' split
  all_goals omega

lemma statusPriorityOfItem_le_three (v : Item) : statusPriorityOfItem v ≤ 3 := by
  cases v <;> simp [statusPriorityOfItem, statusPriorities_le_three]

mutual
/-- Every priority the walker can produce is at most 3. -/
theorem checkStatus_le_three : ∀ t, checkStatus t ≤ 3
  | .str _ => by simp [checkStatus]
  | .scalar _ => by simp [checkStatus]
  | .dict kvs => by
    cases hg : dictGet "status" kvs with
    | some v => rw [checkStatus, hg]; exact statusPriorityOfItem_le_three v
    | none => rw [checkStatus, hg]; exact checkStatusKVs_le_three kvs
  | .list xs => by rw [checkStatus]; exact checkStatusList_le_three xs

/-- Dict-values version of `checkStatus_le_three`. -/
theorem checkStatusKVs_le_three : ∀ kvs, checkStatusKVs kvs ≤ 3
  | [] => by simp [checkStatusKVs]
  | (k, v) :: rest => by
    rw [checkStatusKVs]
    exact Nat.max_le.mpr ⟨checkStatus_le_three v, checkStatusKVs_le_three rest⟩

/-- List-elements version of `checkStatus_le_three`. -/
theorem checkStatusList_le_three : ∀ xs, checkStatusList xs ≤ 3
  | [] => by simp [checkStatusList]
  | x :: rest => by
    rw [checkStatusList]
    exact Nat.max_le.mpr ⟨checkStatus_le_three x, checkStatusList_le_three rest⟩
end

lemma calculateOverallPriority_le_three (r : List (String × Item)) :
    calculateOverallPriority r ≤ 3 := by
  induction r with
  | nil => simp [calculateOverallPriority]
  | cons kv rest ih =>
    obtain ⟨k, v⟩ := kv
    by_cases hk : k ∈ excludedRootKeys
    · rw [calculateOverallPriority, if_pos hk]; exact ih
    · rw [calculateOverallPriority, if_neg hk]
      exact Nat.max_le.mpr ⟨checkStatus_le_three v, ih⟩

lemma statusPriorities_priorityToStatus {p : Nat} (h : p ≤ 3) :
    statusPriorities (priorityToStatus p) = p := by
  match p, h with
  | 0, _ => rfl
  | 1, _ => rfl
  | 2, _ => rfl
  | 3, _ => rfl

/-- The health tree of the spec's scenario, with an excluded `timestamp` root
entry added: `{"timestamp": ..., "disk": {"status": "warning"}, "mem":
{"status": "ok"}, "svc": {"a": {"status": "critical"}}}`. -/
def scenarioTree : List (String × Item) :=
  [("timestamp", .str "2025-11-01T00:00:00"),
   ("disk", .dict [("status", .str "warning")]),
   ("mem", .dict [("status", .str "ok")]),
   ("svc", .dict [("a", .dict [("status", .str "critical")])])]

/-- C1: for every nested check-result tree (root keys `timestamp`,
`system_info`, `overall_status` excluded, and with status-carrying dicts
being leaves as the CheckResult data model requires), the severity of the
aggregate status equals the maximum over the severities of all labeled
nodes, and in particular is ≥ each of them. -/
theorem C1_aggregate_is_max_severity (r : List (String × Item))
    (h : statusLeafWFRoot r = true) :
    statusPriorities (calculateOverallStatus r) = (allLabelsRoot r).foldr max 0 ∧
    ∀ p ∈ allLabelsRoot r, p ≤ statusPriorities (calculateOverallStatus r) := by
  have hround : statusPriorities (calculateOverallStatus r) = calculateOverallPriority r := by
    rw [calculateOverallStatus,
      statusPriorities_priorityToStatus (calculateOverallPriority_le_three r)]
  refine ⟨by rw [hround, calculateOverallPriority_eq_max r h], ?_⟩
  intro p hp
  rw [hround, calculateOverallPriority_eq_max r h]
  exact le_foldrMax hp

/-- Witness for C1 at the spec's scenario tree. -/
theorem C1_aggregate_is_max_severity_witness :
    statusLeafWFRoot scenarioTree = true ∧
    (statusPriorities (calculateOverallStatus scenarioTree) =
        (allLabelsRoot scenarioTree).foldr max 0 ∧
      ∀ p ∈ allLabelsRoot scenarioTree,
        p ≤ statusPriorities (calculateOverallStatus scenarioTree)) :=
  ⟨by decide, C1_aggregate_is_max_severity scenarioTree (by decide)⟩

/-- C2: a dict node carrying a `status` field contributes exactly that
field's severity and is never expanded further — its other fields cannot
affect the result; in particular the tree
`{"x": {"status": "ok", "nested": {"status": "critical"}}}` aggregates to
`"ok"`, not `"critical"`. -/
theorem C2_status_node_is_leaf :
    (∀ kvs v, dictGet "status" kvs = some v →
      checkStatus (.dict kvs) = statusPriorityOfItem v) ∧
    calculateOverallStatus
      [("x", Item.dict [("status", Item.str "ok"),
                        ("nested", Item.dict [("status", Item.str "critical")])])] = "ok" := by
  refine ⟨?_, rfl⟩
  intro kvs v hg
  rw [checkStatus, hg]

/-- Witness for C2: the status-carrying dict of the claim's example
contributes the severity of its own `status` field. -/
theorem C2_status_node_is_leaf_witness :
    checkStatus (Item.dict [("status", Item.str "ok"),
                            ("nested", Item.dict [("status", Item.str "critical")])]) =
      statusPriorityOfItem (Item.str "ok") :=
  C2_status_node_is_leaf.1 _ _ rfl

/-- C4: a node whose `status` value is not one of the four recognized
labels contributes severity 0, and adding any severity-0 node (unrecognized
or missing label) to the root never raises the aggregate. -/
theorem C4_unrecognized_label_is_zero :
    (∀ kvs v, dictGet "status" kvs = some v →
      (∀ s, v = Item.str s →
        s ≠ "ok" ∧ s ≠ "warning" ∧ s ≠ "error" ∧ s ≠ "critical") →
      checkStatus (.dict kvs) = 0) ∧
    (∀ (k : String) (node : Item) (r : List (String × Item)),
      checkStatus node = 0 →
      calculateOverallPriority ((k, node) :: r) = calculateOverallPriority r) := by
  constructor
  · intro kvs v hg hs
    rw [checkStatus, hg]
    match v, hs with
    | Item.str s, hs =>
      obtain ⟨h1, h2, h3, h4⟩ := hs s rfl
      simp [statusPriorityOfItem, statusPriorities, h1, h2, h3, h4]
    | Item.scalar _, _ => rfl
    | Item.dict _, _ => rfl
    | Item.list _, _ => rfl
  · intro k node r h0
    by_cases hk : k ∈ excludedRootKeys
    · rw [calculateOverallPriority, if_pos hk]
    · rw [calculateOverallPriority, if_neg hk, h0]
      simp

/-- Witness for C4 at a node with the unrecognized label `"degraded"`. -/
theorem C4_unrecognized_label_is_zero_witness :
    checkStatus (Item.dict [("status", Item.str "degraded")]) = 0 ∧
    calculateOverallPriority
        (("extra", Item.dict [("status", Item.str "degraded")]) ::
          [("disk", Item.dict [("status", Item.str "warning")])]) =
      calculateOverallPriority [("disk", Item.dict [("status", Item.str "warning")])] :=
  ⟨C4_unrecognized_label_is_zero.1 _ _ rfl
      (fun s hs => by injection hs with h; subst h; exact ⟨by decide, by decide, by decide, by decide⟩),
   C4_unrecognized_label_is_zero.2 _ _ _ (by decide)⟩

/-!
Reorder invariance (C3). `Reord t t'` holds when `t'` is obtained from `t`
by permuting sibling dict entries and sibling list elements, at arbitrary
depth: permute the siblings of the node first, then reorder recursively
inside each child.
-/

mutual
/-- Trees equal up to reordering of sibling keys / sibling elements. -/
def Reord : Item → Item → Prop
  | .str s, .str s' => s = s'
  | .str _, .scalar _ => False
  | .str _, .dict _ => False
  | .str _, .list _ => False
  | .scalar _, .str _ => False
  | .scalar n, .scalar n' => n = n'
  | .scalar _, .dict _ => False
  | .scalar _, .list _ => False
  | .dict _, .str _ => False
  | .dict _, .scalar _ => False
  | .dict l, .dict l' => ∃ m, l.Perm m ∧ ReordKVs m l'
  | .dict _, .list _ => False
  | .list _, .str _ => False
  | .list _, .scalar _ => False
  | .list _, .dict _ => False
  | .list l, .list l' => ∃ m, l.Perm m ∧ ReordList m l'
termination_by _ t' => sizeOf t'

/-- Pointwise `Reord` on dict entries (same keys, in the same order). -/
def ReordKVs : List (String × Item) → List (String × Item) → Prop
  | [], [] => True
  | [], _ :: _ => False
  | _ :: _, [] => False
  | (k, v) :: t, (k', v') :: t' => k = k' ∧ Reord v v' ∧ ReordKVs t t'
termination_by _ l' => sizeOf l'

/-- Pointwise `Reord` on list elements. -/
def ReordList : List Item → List Item → Prop
  | [], [] => True
  | [], _ :: _ => False
  | _ :: _, [] => False
  | x :: t, y :: t' => Reord x y ∧ ReordList t t'
termination_by _ l' => sizeOf l'
end

mutual
/-- Well-formedness for reorder invariance: every dict node in the tree has
distinct keys, as every real Python dict does. -/
def nodupKeysWF : Item → Bool
  | .str _ => true
  | .scalar _ => true
  | .dict kvs => decide ((kvs.map Prod.fst).Nodup) && nodupKeysWFKVs kvs
  | .list xs => nodupKeysWFList xs

/-- `nodupKeysWF` over the values of a dict. -/
def nodupKeysWFKVs : List (String × Item) → Bool
  | [] => true
  | (_, v) :: rest => nodupKeysWF v && nodupKeysWFKVs rest

/-- `nodupKeysWF` over the elements of a list. -/
def nodupKeysWFList : List Item → Bool
  | [] => true
  | x :: rest => nodupKeysWF x && nodupKeysWFList rest
end

/-- Root trees equal up to reordering: permute the root entries, then
reorder recursively inside each value. -/
def RootReord (r r' : List (String × Item)) : Prop :=
  ∃ m, r.Perm m ∧ ReordKVs m r'

lemma nodupKeysWFKVs_iff (l : List (String × Item)) :
    nodupKeysWFKVs l = true ↔ ∀ p ∈ l, nodupKeysWF p.2 = true := by
  induction l with
  | nil => simp [nodupKeysWFKVs]
  | cons p rest ih =>
    obtain ⟨k, v⟩ := p
    simp [nodupKeysWFKVs, Bool.and_eq_true, ih]

lemma nodupKeysWFKVs_perm {l m : List (String × Item)} (hp : l.Perm m)
    (h : nodupKeysWFKVs l = true) : nodupKeysWFKVs m = true := by
  rw [nodupKeysWFKVs_iff] at h ⊢
  intro p hpm
  exact h p (hp.symm.subset hpm)

lemma dictGet_perm (k : String) {l m : List (String × Item)} (hp : l.Perm m)
    (hnd : (l.map Prod.fst).Nodup) : dictGet k l = dictGet k m := by
  induction hp with
  | nil => rfl
  | cons x hp ih =>
    obtain ⟨k1, v1⟩ := x
    rw [List.map_cons, List.nodup_cons] at hnd
    by_cases hk : k1 = k
    · rw [dictGet, if_pos hk, dictGet, if_pos hk]
    · rw [dictGet, if_neg hk, dictGet, if_neg hk]
      exact ih hnd.2
  | swap x y l =>
    obtain ⟨k1, v1⟩ := x
    obtain ⟨k2, v2⟩ := y
    simp only [List.map_cons, List.nodup_cons, List.mem_cons] at hnd
    have hne : k2 ≠ k1 := fun h => hnd.1 (Or.inl h)
    by_cases h2 : k2 = k
    · rw [dictGet, if_pos h2, dictGet, if_neg (h2 ▸ hne ∘ Eq.symm ∘ id), dictGet, if_pos h2]
    · by_cases h1 : k1 = k
      · rw [dictGet, if_neg h2, dictGet, if_pos h1, dictGet, if_pos h1]
      · rw [dictGet, if_neg h2, dictGet, if_neg h1, dictGet, if_neg h1, dictGet, if_neg h2]
  | trans hp1 hp2 ih1 ih2 =>
    rw [ih1 hnd, ih2 ((hp1.map Prod.fst).nodup hnd)]

lemma checkStatusKVs_perm {l m : List (String × Item)} (hp : l.Perm m) :
    checkStatusKVs l = checkStatusKVs m := by
  induction hp with
  | nil => rfl
  | cons x hp ih =>
    obtain ⟨k1, v1⟩ := x
    rw [checkStatusKVs, checkStatusKVs, ih]
  | swap x y l =>
    obtain ⟨k1, v1⟩ := x
    obtain ⟨k2, v2⟩ := y
    rw [checkStatusKVs, checkStatusKVs, checkStatusKVs, checkStatusKVs]
    rw [Nat.max_left_comm]
  | trans hp1 hp2 ih1 ih2 => rw [ih1, ih2]

lemma checkStatus_dict_perm {l m : List (String × Item)} (hp : l.Perm m)
    (hnd : (l.map Prod.fst).Nodup) :
    checkStatus (.dict l) = checkStatus (.dict m) := by
  rw [checkStatus, checkStatus, dictGet_perm "status" hp hnd]
  cases dictGet "status" m with
  | some v => rfl
  | none => exact checkStatusKVs_perm hp

lemma reordKVs_dictGet (k : String) :
    ∀ {m l' : List (String × Item)}, ReordKVs m l' →
      (dictGet k m = none → dictGet k l' = none) ∧
      (∀ v, dictGet k m = some v → ∃ v', dictGet k l' = some v' ∧ Reord v v')
  | [], [], _ => ⟨fun _ => rfl, fun v hv => by rw [dictGet] at hv; cases hv⟩
  | [], (_ :: _), h => absurd h (by rw [ReordKVs]; exact not_false)
  | (_ :: _), [], h => absurd h (by rw [ReordKVs]; exact not_false)
  | (k1, v1) :: t, (k1', v1') :: t', h => by
    rw [ReordKVs] at h
    obtain ⟨hk, hr, ht⟩ := h
    subst hk
    by_cases hkk : k1 = k
    · refine ⟨fun hnone => ?_, fun v hv => ?_⟩
      · rw [dictGet, if_pos hkk] at hnone; cases hnone
      · rw [dictGet, if_pos hkk] at hv
        refine ⟨v1', by rw [dictGet, if_pos hkk], ?_⟩
        cases hv; exact hr
    · refine ⟨fun hnone => ?_, fun v hv => ?_⟩
      · rw [dictGet, if_neg hkk] at hnone
        rw [dictGet, if_neg hkk]
        exact (reordKVs_dictGet k ht).1 hnone
      · rw [dictGet, if_neg hkk] at hv
        rw [dictGet, if_neg hkk]
        exact (reordKVs_dictGet k ht).2 v hv

lemma reord_statusPriority :
    ∀ {v v' : Item}, Reord v v' → statusPriorityOfItem v = statusPriorityOfItem v'
  | .str s, .str s', h => by
    rw [Reord] at h
    rw [h]
  | .str _, .scalar _, h => absurd h (by rw [Reord]; exact not_false)
  | .str _, .dict _, h => absurd h (by rw [Reord]; exact not_false)
  | .str _, .list _, h => absurd h (by rw [Reord]; exact not_false)
  | .scalar _, .str _, h => absurd h (by rw [Reord]; exact not_false)
  | .scalar _, .scalar _, _ => rfl
  | .scalar _, .dict _, h => absurd h (by rw [Reord]; exact not_false)
  | .scalar _, .list _, h => absurd h (by rw [Reord]; exact not_false)
  | .dict _, .str _, h => absurd h (by rw [Reord]; exact not_false)
  | .dict _, .scalar _, h => absurd h (by rw [Reord]; exact not_false)
  | .dict _, .dict _, _ => rfl
  | .dict _, .list _, h => absurd h (by rw [Reord]; exact not_false)
  | .list _, .str _, h => absurd h (by rw [Reord]; exact not_false)
  | .list _, .scalar _, h => absurd h (by rw [Reord]; exact not_false)
  | .list _, .dict _, h => absurd h (by rw [Reord]; exact not_false)
  | .list _, .list _, _ => rfl

lemma nodupKeysWFList_iff (l : List Item) :
    nodupKeysWFList l = true ↔ ∀ x ∈ l, nodupKeysWF x = true := by
  induction l with
  | nil => simp [nodupKeysWFList]
  | cons x rest ih => simp [nodupKeysWFList, Bool.and_eq_true, ih]

lemma nodupKeysWFList_perm {l m : List Item} (hp : l.Perm m)
    (h : nodupKeysWFList l = true) : nodupKeysWFList m = true := by
  rw [nodupKeysWFList_iff] at h ⊢
  intro x hx
  exact h x (hp.symm.subset hx)

lemma checkStatusList_perm {l m : List Item} (hp : l.Perm m) :
    checkStatusList l = checkStatusList m := by
  induction hp with
  | nil => rfl
  | cons x hp ih => rw [checkStatusList, checkStatusList, ih]
  | swap x y l =>
    rw [checkStatusList, checkStatusList, checkStatusList, checkStatusList]
    rw [Nat.max_left_comm]
  | trans hp1 hp2 ih1 ih2 => rw [ih1, ih2]

mutual
/-- The walker is invariant under reordering of siblings at any depth, on
trees whose dicts have distinct keys (as all Python dicts do). -/
theorem reord_checkStatus :
    ∀ t t', nodupKeysWF t = true → Reord t t' → checkStatus t = checkStatus t'
  | .str _, .str _, _, _ => rfl
  | .str _, .scalar _, _, h => absurd h (by rw [Reord]; exact not_false)
  | .str _, .dict _, _, h => absurd h (by rw [Reord]; exact not_false)
  | .str _, .list _, _, h => absurd h (by rw [Reord]; exact not_false)
  | .scalar _, .str _, _, h => absurd h (by rw [Reord]; exact not_false)
  | .scalar _, .scalar _, _, _ => rfl
  | .scalar _, .dict _, _, h => absurd h (by rw [Reord]; exact not_false)
  | .scalar _, .list _, _, h => absurd h (by rw [Reord]; exact not_false)
  | .dict _, .str _, _, h => absurd h (by rw [Reord]; exact not_false)
  | .dict _, .scalar _, _, h => absurd h (by rw [Reord]; exact not_false)
  | .dict l, .dict l', hwf, h => by
    rw [Reord] at h
    obtain ⟨m, hperm, hpw⟩ := h
    rw [nodupKeysWF, Bool.and_eq_true] at hwf
    have hnd : (l.map Prod.fst).Nodup := of_decide_eq_true hwf.1
    have hm : nodupKeysWFKVs m = true := nodupKeysWFKVs_perm hperm hwf.2
    rw [checkStatus_dict_perm hperm hnd, checkStatus, checkStatus]
    cases hgm : dictGet "status" m with
    | some v =>
      obtain ⟨v', hgl', hrv⟩ := (reordKVs_dictGet "status" hpw).2 v hgm
      rw [hgl']
      exact reord_statusPriority hrv
    | none =>
      rw [(reordKVs_dictGet "status" hpw).1 hgm]
      exact reordKVs_checkStatusKVs m l' hm hpw
  | .dict _, .list _, _, h => absurd h (by rw [Reord]; exact not_false)
  | .list _, .str _, _, h => absurd h (by rw [Reord]; exact not_false)
  | .list _, .scalar _, _, h => absurd h (by rw [Reord]; exact not_false)
  | .list _, .dict _, _, h => absurd h (by rw [Reord]; exact not_false)
  | .list l, .list l', hwf, h => by
    rw [Reord] at h
    obtain ⟨m, hperm, hpw⟩ := h
    rw [nodupKeysWF] at hwf
    rw [checkStatus, checkStatus, checkStatusList_perm hperm]
    exact reordList_checkStatusList m l' (nodupKeysWFList_perm hperm hwf) hpw
termination_by t t' _ _ => sizeOf t'

/-- Pointwise version of `reord_checkStatus` on dict entries. -/
theorem reordKVs_checkStatusKVs :
    ∀ m l', nodupKeysWFKVs m = true → ReordKVs m l' → checkStatusKVs m = checkStatusKVs l'
  | [], [], _, _ => rfl
  | [], _ :: _, _, h => absurd h (by rw [ReordKVs]; exact not_false)
  | _ :: _, [], _, h => absurd h (by rw [ReordKVs]; exact not_false)
  | (k, v) :: t, (k', v') :: t', hwf, h => by
    rw [ReordKVs] at h
    obtain ⟨hk, hr, ht⟩ := h
    rw [nodupKeysWFKVs, Bool.and_eq_true] at hwf
    rw [checkStatusKVs, checkStatusKVs,
      reord_checkStatus v v' hwf.1 hr, reordKVs_checkStatusKVs t t' hwf.2 ht]
termination_by m l' _ _ => sizeOf l'

/-- Pointwise version of `reord_checkStatus` on list elements. -/
theorem reordList_checkStatusList :
    ∀ m l', nodupKeysWFList m = true → ReordList m l' → checkStatusList m = checkStatusList l'
  | [], [], _, _ => rfl
  | [], _ :: _, _, h => absurd h (by rw [ReordList]; exact not_false)
  | _ :: _, [], _, h => absurd h (by rw [ReordList]; exact not_false)
  | x :: t, y :: t', hwf, h => by
    rw [ReordList] at h
    obtain ⟨hr, ht⟩ := h
    rw [nodupKeysWFList, Bool.and_eq_true] at hwf
    rw [checkStatusList, checkStatusList,
      reord_checkStatus x y hwf.1 hr, reordList_checkStatusList t t' hwf.2 ht]
termination_by m l' _ _ => sizeOf l'
end

mutual
/-- `Reord` is reflexive. -/
theorem reord_refl : ∀ t, Reord t t
  | .str _ => by rw [Reord]
  | .scalar _ => by rw [Reord]
  | .dict l => by rw [Reord]; exact ⟨l, List.Perm.refl l, reordKVs_refl l⟩
  | .list l => by rw [Reord]; exact ⟨l, List.Perm.refl l, reordList_refl l⟩
termination_by t => sizeOf t

/-- `ReordKVs` is reflexive. -/
theorem reordKVs_refl : ∀ l, ReordKVs l l
  | [] => by rw [ReordKVs]; trivial
  | (k, v) :: t => by rw [ReordKVs]; exact ⟨rfl, reord_refl v, reordKVs_refl t⟩
termination_by l => sizeOf l

/-- `ReordList` is reflexive. -/
theorem reordList_refl : ∀ l, ReordList l l
  | [] => by rw [ReordList]; trivial
  | x :: t => by rw [ReordList]; exact ⟨reord_refl x, reordList_refl t⟩
termination_by l => sizeOf l
end

lemma calculateOverallPriority_perm {r m : List (String × Item)} (hp : r.Perm m) :
    calculateOverallPriority r = calculateOverallPriority m := by
  induction hp with
  | nil => rfl
  | cons x hp ih =>
    obtain ⟨k, v⟩ := x
    by_cases hk : k ∈ excludedRootKeys
    · rw [calculateOverallPriority, if_pos hk, calculateOverallPriority, if_pos hk, ih]
    · rw [calculateOverallPriority, if_neg hk, calculateOverallPriority, if_neg hk, ih]
  | swap x y l =>
    obtain ⟨k1, v1⟩ := x
    obtain ⟨k2, v2⟩ := y
    by_cases h1 : k1 ∈ excludedRootKeys <;> by_cases h2 : k2 ∈ excludedRootKeys <;>
      simp [calculateOverallPriority, h1, h2, Nat.max_left_comm]
  | trans hp1 hp2 ih1 ih2 => rw [ih1, ih2]

lemma reordKVs_calculateOverallPriority :
    ∀ m r', nodupKeysWFKVs m = true → ReordKVs m r' →
      calculateOverallPriority m = calculateOverallPriority r'
  | [], [], _, _ => rfl
  | [], _ :: _, _, h => absurd h (by rw [ReordKVs]; exact not_false)
  | _ :: _, [], _, h => absurd h (by rw [ReordKVs]; exact not_false)
  | (k, v) :: t, (k', v') :: t', hwf, h => by
    rw [ReordKVs] at h
    obtain ⟨hk, hr, ht⟩ := h
    subst hk
    rw [nodupKeysWFKVs, Bool.and_eq_true] at hwf
    by_cases hkx : k ∈ excludedRootKeys
    · rw [calculateOverallPriority, if_pos hkx, calculateOverallPriority, if_pos hkx,
        reordKVs_calculateOverallPriority t t' hwf.2 ht]
    · rw [calculateOverallPriority, if_neg hkx, calculateOverallPriority, if_neg hkx,
        reord_checkStatus v v' hwf.1 hr, reordKVs_calculateOverallPriority t t' hwf.2 ht]

/-- C3: the aggregator maps the empty mapping to `"ok"`, and its result is
invariant under any reordering of sibling dict keys and sibling list
elements at any depth (on trees whose dicts have distinct keys, as every
Python dict does). -/
theorem C3_empty_ok_and_reorder_invariant :
    calculateOverallStatus [] = "ok" ∧
    ∀ r r', nodupKeysWFKVs r = true → RootReord r r' →
      calculateOverallStatus r = calculateOverallStatus r' := by
  refine ⟨rfl, ?_⟩
  rintro r r' hwf ⟨m, hperm, hpw⟩
  rw [calculateOverallStatus, calculateOverallStatus, calculateOverallPriority_perm hperm,
    reordKVs_calculateOverallPriority m r' (nodupKeysWFKVs_perm hperm hwf) hpw]

/-- A two-entry tree whose root entries are swapped and whose `"b"` list is
reversed in `reorderedTree`. -/
def originalTree : List (String × Item) :=
  [("a", .dict [("status", .str "warning")]),
   ("b", .list [.scalar 1, .dict [("status", .str "error")]])]

/-- `originalTree` after reordering root siblings and list siblings. -/
def reorderedTree : List (String × Item) :=
  [("b", .list [.dict [("status", .str "error")], .scalar 1]),
   ("a", .dict [("status", .str "warning")])]

/-- Witness for C3: a concrete reorder of both root keys and list elements
leaves the aggregate unchanged. -/
theorem C3_empty_ok_and_reorder_invariant_witness :
    nodupKeysWFKVs originalTree = true ∧
    calculateOverallStatus originalTree = calculateOverallStatus reorderedTree := by
  refine ⟨by decide, C3_empty_ok_and_reorder_invariant.2 _ _ (by decide) ?_⟩
  refine ⟨[("b", .list [.scalar 1, .dict [("status", .str "error")]]),
           ("a", .dict [("status", .str "warning")])], ?_, ?_⟩
  · unfold originalTree
    exact List.Perm.swap _ _ _
  · unfold reorderedTree
    rw [ReordKVs]
    refine ⟨rfl, ?_, ?_⟩
    · rw [Reord]
      exact ⟨[.dict [("status", .str "error")], .scalar 1],
        List.Perm.swap _ _ _, reordList_refl _⟩
    · rw [ReordKVs]
      exact ⟨rfl, reord_refl _, by rw [ReordKVs]; trivial⟩

/-!
Part 2: `NetworkRepair._attempt_fix` and the per-fix loop of the `_fix_*`
methods (`src/scripts/helpdesk/network_repair.py`).

The command-execution collaborator (`CommandRunner.run_command`) is modelled
as a function from a command to its outcome: either a completed process
(exit code, stdout, stderr) or a raised exception (timeout, missing
executable) carrying its message, which `_attempt_fix` catches at the
action boundary. The interactive-confirmation collaborator (`input()`) is
modelled as the list of successive reply strings; running out of replies
models `input()` raising `EOFError`, which the same boundary catches.
Wall-clock `execution_time` is real time and is not modelled.
-/

/-- One entry of an action's platform command list: either a token list
(run without a shell) or a single string (run with `shell=True`). A flat
list of strings in the source's tables reaches `_attempt_fix` as several
independent string commands. -/
inductive Cmd where
  | toks : List String → Cmd
  | str : String → Cmd
deriving DecidableEq, Repr

/-- Outcome of one call to the command-execution collaborator. -/
inductive RunOutcome where
  | completed : Int → String → String → RunOutcome
  | raised : String → RunOutcome
deriving DecidableEq, Repr

/-- The per-action outcome record built by `_attempt_fix`
(`execution_time` omitted: wall-clock time). -/
structure FixResult where
  name : String
  description : String
  priority : Nat
  success : Bool
  output : String
  error : String
  dryRun : Bool
  skipped : Bool
  userDeclined : Bool
deriving DecidableEq, Repr

/-- An action definition as passed to `_attempt_fix`: the `fix` dicts of
the `fixes_to_try` tables. `priority` is read with `.get('priority', 999)`,
hence optional. -/
structure FixConfig where
  name : String
  description : String
  priority : Option Nat
  requiresAdmin : Bool
  commandsByPlatform : List (String × List Cmd)
deriving DecidableEq, Repr

/-- Generic association-list lookup, modelling Python `dict.get`. -/
def assocGet {α : Type} (key : String) : List (String × α) → Option α
  | [] => none
  | (k, v) :: rest => if k = key then some v else assocGet key rest

/-- One entry of the static `destructive_operations` table. -/
structure DestructiveInfo where
  description : String
  warningText : String
  impact : String
deriving DecidableEq, Repr

/-- The `destructive_operations` table of `_attempt_fix`. -/
def destructiveOperations : List (String × DestructiveInfo) :=
  [("reset_firewall",
    ⟨"Reset Windows Firewall to defaults",
     "This will remove ALL custom firewall rules and may affect VPN, remote access, and security policies.",
     "HIGH RISK - May break network access for applications and services"⟩),
   ("reset_tcp_ip_stack",
    ⟨"Reset TCP/IP stack",
     "This will reset all TCP/IP settings and may require a system restart.",
     "MEDIUM RISK - May cause temporary network disconnection"⟩),
   ("disable_enable_adapter",
    ⟨"Disable and re-enable network adapter",
     "This will temporarily disconnect all network access.",
     "MEDIUM RISK - Brief network interruption (5-10 seconds)"⟩),
   ("reset_network_adapter",
    ⟨"Reset network adapter configuration",
     "This will reset Winsock settings and may affect network connectivity.",
     "MEDIUM RISK - May require restart for full effect"⟩)]

/-- Result of the `while True` confirmation loop. -/
inductive Decision where
  | approved
  | skipChosen
  | declined
  | inputExhausted
deriving DecidableEq, Repr

/-- One character of Python `str.lower()`: the ASCII uppercase range maps
down by 32, and U+212A (the Kelvin sign) is the only character outside
ASCII whose full Unicode lowercase is a bare ASCII character, `k`. Every
other character either maps to itself both here and in Python, or maps in
Python to a string containing a character outside ASCII — so equality of a
lowercased string with any all-ASCII token is decided identically by this
map and by Python. -/
def pyCharLower (c : Char) : Char :=
  if 65 ≤ c.toNat ∧ c.toNat ≤ 90 then Char.ofNat (c.toNat + 32)
  else if c.toNat = 8490 then 'k'
  else c

/-- The exact set of characters stripped by Python `str.strip()`
(bidirectional classes WS, B and S): U+0009–U+000D, U+001C–U+001F, space,
U+0085, U+00A0, U+1680, U+2000–U+200A, U+2028, U+2029, U+202F, U+205F and
U+3000. -/
def pyIsSpace (c : Char) : Bool :=
  (9 ≤ c.toNat ∧ c.toNat ≤ 13) ∨ (28 ≤ c.toNat ∧ c.toNat ≤ 31) ∨
    c.toNat = 32 ∨ c.toNat = 133 ∨ c.toNat = 160 ∨ c.toNat = 5760 ∨
    (8192 ≤ c.toNat ∧ c.toNat ≤ 8202) ∨ c.toNat = 8232 ∨ c.toNat = 8233 ∨
    c.toNat = 8239 ∨ c.toNat = 8287 ∨ c.toNat = 12288

/-- Python `str.lower()`, exact for comparison against all-ASCII strings
(see `pyCharLower`). -/
def pyLowerStr (s : String) : String := ⟨s.data.map pyCharLower⟩

/-- Python `choice = input(...).strip().lower()` applied to one reply:
strip the exact Python whitespace set from both ends, then lowercase.
Classification of the result against the all-ASCII reply tokens agrees
with Python on every input string. -/
def normalizeReply (s : String) : String :=
  pyLowerStr ⟨((s.data.dropWhile pyIsSpace).reverse.dropWhile pyIsSpace).reverse⟩

/-- The confirmation loop: each reply is `.strip().lower()`-normalized;
`y`/`yes` approves, `s`/`skip` skips, `n`/`no`/empty declines, anything
else re-prompts. Also returns how many prompts were issued. An exhausted
reply list models `input()` raising `EOFError`. -/
def confirmLoop : List String → Decision × Nat
  | [] => (.inputExhausted, 0)
  | c :: rest =>
    let choice := normalizeReply c
    if choice = "y" ∨ choice = "yes" then (.approved, 1)
    else if choice = "s" ∨ choice = "skip" then (.skipChosen, 1)
    else if choice = "n" ∨ choice = "no" ∨ choice = "" then (.declined, 1)
    else
      let r := confirmLoop rest
      (r.1, r.2 + 1)

/-- Substring search over character lists: does `pat` occur in the list? -/
def listContainsSub (pat : List Char) : List Char → Bool
  | [] => pat.isPrefixOf []
  | c :: cs => pat.isPrefixOf (c :: cs) || listContainsSub pat cs

/-- Python substring test `pat in s`. -/
def strContainsSub (s pat : String) : Bool := listContainsSub pat.data s.data

/-- The record appended to `all_outputs` after each executed command. -/
def commandRecord : Cmd → String → String
  | .toks ts, stdout => "Command: " ++ String.intercalate " " ts ++ "\nOutput: " ++ stdout
  | .str s, stdout => "Command: " ++ s ++ "\nOutput: " ++ stdout

/-- The command-execution loop of `_attempt_fix`, returning the updated
fix result together with the list of commands actually dispatched to the
collaborator. A completed command with nonzero exit aborts with
`Command failed: <stderr>` unless it is a token-list command whose first
token contains `timeout` (`if code != 0 and 'timeout' not in
cmd[0].lower()` — the allow-failure convention); evaluating `cmd[0]` of an
empty token list raises `IndexError`, caught at the action boundary; a
raised collaborator exception likewise becomes the error text. A string
command (`shell=True`) has no allow-failure exemption. When every command
has run, the outputs are joined and the action is marked successful. -/
def runCommands (runner : Cmd → RunOutcome) (base : FixResult) :
    List Cmd → List String → FixResult × List Cmd
  | [], outs =>
    ({ base with output := String.intercalate "\n\n" outs, success := true }, [])
  | cmd :: rest, outs =>
    match runner cmd with
    | .raised msg => ({ base with error := msg }, [cmd])
    | .completed code stdout stderr =>
      match cmd with
      | .toks ts =>
        if code ≠ 0 then
          match ts with
          | [] => ({ base with error := "list index out of range" }, [cmd])
          | t0 :: _ =>
            if strContainsSub (pyLowerStr t0) "timeout" then
              let r := runCommands runner base rest (outs ++ [commandRecord cmd stdout])
              (r.1, cmd :: r.2)
            else
              ({ base with error := "Command failed: " ++ stderr }, [cmd])
        else
          let r := runCommands runner base rest (outs ++ [commandRecord cmd stdout])
          (r.1, cmd :: r.2)
      | .str _ =>
        if code ≠ 0 then
          ({ base with error := "Command failed: " ++ stderr }, [cmd])
        else
          let r := runCommands runner base rest (outs ++ [commandRecord cmd stdout])
          (r.1, cmd :: r.2)

/-- The fix result as initialized at the top of `_attempt_fix`. -/
def baseFixResult (cfg : FixConfig) (dryRun : Bool) : FixResult :=
  { name := cfg.name, description := cfg.description,
    priority := cfg.priority.getD 999, success := false, output := "",
    error := "", dryRun := dryRun, skipped := false, userDeclined := false }

/-- The trace of one `_attempt_fix` call: its result record, the commands
dispatched to the command-execution collaborator, and the number of
confirmation prompts issued. -/
structure AttemptTrace where
  result : FixResult
  executed : List Cmd
  prompts : Nat
deriving DecidableEq, Repr

/-- `NetworkRepair._attempt_fix`. In source order: resolve the platform
command list (`.get(os_type, [])`) and fail early when it is empty; gate a
destructive action (name in `destructive_operations`) behind the
confirmation loop unless in dry-run; in dry-run return success with a
command count (impact-annotated when destructive); otherwise execute the
commands. Note the source never consults `auto_approve_destructive` here —
the flag is accepted by `run_automated_fixes` but not passed down. -/
def attemptFix (runner : Cmd → RunOutcome) (inputs : List String)
    (osType : String) (cfg : FixConfig) (dryRun : Bool) : AttemptTrace :=
  let base := baseFixResult cfg dryRun
  let commands := (assocGet osType cfg.commandsByPlatform).getD []
  if commands.isEmpty then
    ⟨{ base with error := "No commands defined for " ++ osType }, [], 0⟩
  else if (assocGet cfg.name destructiveOperations).isSome ∧ ¬ dryRun then
    match confirmLoop inputs with
    | (.approved, n) =>
      let r := runCommands runner base commands []
      ⟨r.1, r.2, n⟩
    | (.skipChosen, n) =>
      ⟨{ base with
          skipped := true, success := true,
          output := "Skipped by user request" }, [], n⟩
    | (.declined, n) =>
      ⟨{ base with
          userDeclined := true,
          error := "User declined to execute this fix" }, [], n⟩
    | (.inputExhausted, n) =>
      ⟨{ base with error := "EOF when reading a line" }, [], n⟩
  else if dryRun then
    let impactNote :=
      match assocGet cfg.name destructiveOperations with
      | some info => " [⚠️ " ++ info.impact ++ "]"
      | none => ""
    ⟨{ base with
        success := true,
        output := "DRY RUN: Would execute " ++ toString commands.length ++
          " command(s)" ++ impactNote }, [], 0⟩
  else
    let r := runCommands runner base commands []
    ⟨r.1, r.2, 0⟩

/-- The session record aggregated by the `_fix_*` methods (the
`fix_results` keys this core updates per action). -/
structure FixSession where
  attempted : List FixResult
  successful : List String
  failed : List String
  requiresAdmin : Bool
deriving DecidableEq, Repr

/-- The session before any fix is attempted. -/
def emptySession : FixSession := ⟨[], [], [], false⟩

/-- The per-fix loop shared by `_fix_dns_issues`, `_fix_connectivity_issues`,
`_fix_interface_issues` and `_fix_windows_network_issues`: attempt each fix,
append its result to `fixes_attempted`, file its name under successful or
failed, and OR in `requires_admin`. The confirmation replies consumed by one
action are no longer available to the next. -/
def runFixPass (runner : Cmd → RunOutcome) (osType : String) (dryRun : Bool) :
    List FixConfig → List String → FixSession → FixSession × List String
  | [], inputs, acc => (acc, inputs)
  | cfg :: rest, inputs, acc =>
    let t := attemptFix runner inputs osType cfg dryRun
    let acc' : FixSession :=
      { attempted := acc.attempted ++ [t.result],
        successful :=
          if t.result.success then acc.successful ++ [t.result.name]
          else acc.successful,
        failed :=
          if t.result.success then acc.failed
          else acc.failed ++ [t.result.name],
        requiresAdmin := acc.requiresAdmin || cfg.requiresAdmin }
    runFixPass runner osType dryRun rest (inputs.drop t.prompts) acc'

/-- A stub command-execution collaborator for concrete witnesses: every
command completes successfully. -/
def stubRunner : Cmd → RunOutcome := fun _ => .completed 0 "" ""

/-- A fix whose command table has no entry for any platform. -/
def noCommandsFix : FixConfig :=
  ⟨"flush_dns_cache", "Flush DNS cache", some 1, true, []⟩

/-- The `reset_firewall` action of `_fix_windows_network_issues` (its flat
`['netsh', 'advfirewall', 'reset']` command list reaches `_attempt_fix` as
three independent string commands). -/
def resetFirewallFix : FixConfig :=
  ⟨"reset_firewall", "Reset Windows Firewall to defaults (USE WITH CAUTION)",
   some 3, true,
   [("windows", [.str "netsh", .str "advfirewall", .str "reset"])]⟩

/-- C10: the no-commands check precedes the dry-run branch, so an action
with no commands for the current platform records a failure with a
"No commands defined" error — for every value of the dry-run flag,
in particular in dry-run mode — and dispatches no command and issues no
prompt. -/
theorem C10_no_commands_error_beats_dry_run (runner : Cmd → RunOutcome)
    (inputs : List String) (osType : String) (cfg : FixConfig) (dryRun : Bool)
    (h : (assocGet osType cfg.commandsByPlatform).getD [] = []) :
    (attemptFix runner inputs osType cfg dryRun).result.success = false ∧
    (attemptFix runner inputs osType cfg dryRun).result.error =
      "No commands defined for " ++ osType ∧
    (attemptFix runner inputs osType cfg dryRun).executed = [] ∧
    (attemptFix runner inputs osType cfg dryRun).prompts = 0 := by
  refine ⟨?_, ?_, ?_, ?_⟩ <;> simp [attemptFix, h, baseFixResult]

/-- Witness for C10: the platform-less fix fails in dry-run mode. -/
theorem C10_no_commands_error_beats_dry_run_witness :
    (assocGet "linux" noCommandsFix.commandsByPlatform).getD [] = [] ∧
    ((attemptFix stubRunner [] "linux" noCommandsFix true).result.success = false ∧
      (attemptFix stubRunner [] "linux" noCommandsFix true).result.error =
        "No commands defined for " ++ "linux" ∧
      (attemptFix stubRunner [] "linux" noCommandsFix true).executed = [] ∧
      (attemptFix stubRunner [] "linux" noCommandsFix true).prompts = 0) :=
  ⟨rfl, C10_no_commands_error_beats_dry_run stubRunner [] "linux" noCommandsFix true rfl⟩

/-- Counterexample to C5 as stated: in dry-run mode an action whose command
table has no entry for the current platform does NOT return a success
result — the no-commands failure takes precedence (see C10). -/
theorem C5_counterexample_no_commands_dry_run :
    (attemptFix stubRunner [] "linux" noCommandsFix true).result.success = false := rfl

/-- C5 (amended): in dry-run mode the executor dispatches no command to
the command-execution collaborator and issues no confirmation prompt, for
every action including destructive ones; and provided the action has at
least one command for the current platform, it returns a success result
whose output counts the commands that would run, annotated with the impact
rating exactly when the action is in the destructive table. -/
theorem C5_dry_run_informs_never_executes (runner : Cmd → RunOutcome)
    (inputs : List String) (osType : String) (cfg : FixConfig) :
    (attemptFix runner inputs osType cfg true).executed = [] ∧
    (attemptFix runner inputs osType cfg true).prompts = 0 ∧
    ((assocGet osType cfg.commandsByPlatform).getD [] ≠ [] →
      (attemptFix runner inputs osType cfg true).result.success = true ∧
      (attemptFix runner inputs osType cfg true).result.output =
        "DRY RUN: Would execute " ++
          toString ((assocGet osType cfg.commandsByPlatform).getD []).length ++
          " command(s)" ++
          (match assocGet cfg.name destructiveOperations with
           | some info => " [⚠️ " ++ info.impact ++ "]"
           | none => "")) := by
  cases hcs : (assocGet osType cfg.commandsByPlatform).getD [] with
  | nil =>
    refine ⟨?_, ?_, fun hne => absurd rfl hne⟩ <;> simp [attemptFix, hcs]
  | cons c cs =>
    refine ⟨?_, ?_, fun _ => ⟨?_, ?_⟩⟩ <;> simp [attemptFix, hcs, baseFixResult]

/-- Witness for C5 (amended) at the destructive `reset_firewall` action on
Windows in dry-run mode. -/
theorem C5_dry_run_informs_never_executes_witness :
    (assocGet "windows" resetFirewallFix.commandsByPlatform).getD [] ≠ [] ∧
    (attemptFix stubRunner [] "windows" resetFirewallFix true).executed = [] ∧
    (attemptFix stubRunner [] "windows" resetFirewallFix true).prompts = 0 ∧
    (attemptFix stubRunner [] "windows" resetFirewallFix true).result.success = true ∧
    (attemptFix stubRunner [] "windows" resetFirewallFix true).result.output =
      "DRY RUN: Would execute 3 command(s) [⚠️ HIGH RISK - May break network access for applications and services]" := by
  have h := C5_dry_run_informs_never_executes stubRunner [] "windows" resetFirewallFix
  refine ⟨by decide, h.1, h.2.1, (h.2.2 (by decide)).1, ?_⟩
  have := (h.2.2 (by decide)).2
  rw [this]
  rfl

/-- C6: a destructive action, not in dry-run, whose (stripped, lowercased)
confirmation reply is `s` or `skip` yields a result with `skipped = true`
and `success = true`, and no command reaches the command-execution
collaborator. (`auto_approve_destructive` is not consulted by
`_attempt_fix` at all, so in particular the claim holds with it false.) -/
theorem C6_skip_is_recorded_as_success (runner : Cmd → RunOutcome)
    (osType : String) (cfg : FixConfig) (c : String) (rest : List String)
    (hdes : (assocGet cfg.name destructiveOperations).isSome = true)
    (hcmd : (assocGet osType cfg.commandsByPlatform).getD [] ≠ [])
    (hin : normalizeReply c = "s" ∨ normalizeReply c = "skip") :
    (attemptFix runner (c :: rest) osType cfg false).result.skipped = true ∧
    (attemptFix runner (c :: rest) osType cfg false).result.success = true ∧
    (attemptFix runner (c :: rest) osType cfg false).executed = [] := by
  have hloop : confirmLoop (c :: rest) = (.skipChosen, 1) := by
    rcases hin with h | h <;> simp [confirmLoop, h]
  cases hcs : (assocGet osType cfg.commandsByPlatform).getD [] with
  | nil => exact absurd hcs hcmd
  | cons a as =>
    refine ⟨?_, ?_, ?_⟩ <;> simp [attemptFix, hcs, hdes, hloop, baseFixResult]

/-- Witness for C6: skipping `reset_firewall` with reply `"s"`. -/
theorem C6_skip_is_recorded_as_success_witness :
    (assocGet resetFirewallFix.name destructiveOperations).isSome = true ∧
    ((attemptFix stubRunner ["s"] "windows" resetFirewallFix false).result.skipped = true ∧
      (attemptFix stubRunner ["s"] "windows" resetFirewallFix false).result.success = true ∧
      (attemptFix stubRunner ["s"] "windows" resetFirewallFix false).executed = []) :=
  ⟨by decide,
   C6_skip_is_recorded_as_success stubRunner "windows" resetFirewallFix "s" []
     (by decide) (by decide) (Or.inl (by decide))⟩

/-- C7: a destructive action, not in dry-run, whose reply is empty, `n` or
`no` yields `userDeclined = true`, `success = false` and no executed
command; and any reply besides the approve/decline/skip tokens re-prompts:
the outcome is exactly that of the remaining replies, with one more prompt
issued. -/
theorem C7_decline_default_and_reprompt (runner : Cmd → RunOutcome)
    (osType : String) (cfg : FixConfig) (c : String) (rest : List String)
    (hdes : (assocGet cfg.name destructiveOperations).isSome = true)
    (hcmd : (assocGet osType cfg.commandsByPlatform).getD [] ≠ []) :
    ((normalizeReply c = "" ∨ normalizeReply c = "n" ∨ normalizeReply c = "no") →
      (attemptFix runner (c :: rest) osType cfg false).result.userDeclined = true ∧
      (attemptFix runner (c :: rest) osType cfg false).result.success = false ∧
      (attemptFix runner (c :: rest) osType cfg false).executed = []) ∧
    (normalizeReply c ∉ (["y", "yes", "s", "skip", "n", "no", ""] : List String) →
      (attemptFix runner (c :: rest) osType cfg false).result =
          (attemptFix runner rest osType cfg false).result ∧
      (attemptFix runner (c :: rest) osType cfg false).executed =
          (attemptFix runner rest osType cfg false).executed ∧
      (attemptFix runner (c :: rest) osType cfg false).prompts =
          (attemptFix runner rest osType cfg false).prompts + 1) := by
  cases hcs : (assocGet osType cfg.commandsByPlatform).getD [] with
  | nil => exact absurd hcs hcmd
  | cons a as =>
    constructor
    · intro hin
      have hloop : confirmLoop (c :: rest) = (.declined, 1) := by
        rcases hin with h | h | h <;> simp [confirmLoop, h]
      refine ⟨?_, ?_, ?_⟩ <;> simp [attemptFix, hcs, hdes, hloop, baseFixResult]
    · intro hinv
      simp only [List.mem_cons, List.not_mem_nil, or_false, not_or] at hinv
      obtain ⟨h1, h2, h3, h4, h5, h6, h7⟩ := hinv
      have hloop : confirmLoop (c :: rest) =
          ((confirmLoop rest).1, (confirmLoop rest).2 + 1) := by
        rw [confirmLoop]
        simp [h1, h2, h3, h4, h5, h6, h7]
      rcases hn : confirmLoop rest with ⟨d, n⟩
      cases d <;> refine ⟨?_, ?_, ?_⟩ <;> simp [attemptFix, hcs, hdes, hloop, hn]

/-- Witness for C7: declining `reset_firewall` with an empty reply, and
re-prompting on the invalid reply `"x"` before a skip. -/
theorem C7_decline_default_and_reprompt_witness :
    ((attemptFix stubRunner [""] "windows" resetFirewallFix false).result.userDeclined = true ∧
      (attemptFix stubRunner [""] "windows" resetFirewallFix false).result.success = false ∧
      (attemptFix stubRunner [""] "windows" resetFirewallFix false).executed = []) ∧
    ((attemptFix stubRunner ["x", "s"] "windows" resetFirewallFix false).result =
        (attemptFix stubRunner ["s"] "windows" resetFirewallFix false).result ∧
      (attemptFix stubRunner ["x", "s"] "windows" resetFirewallFix false).executed =
        (attemptFix stubRunner ["s"] "windows" resetFirewallFix false).executed ∧
      (attemptFix stubRunner ["x", "s"] "windows" resetFirewallFix false).prompts =
        (attemptFix stubRunner ["s"] "windows" resetFirewallFix false).prompts + 1) :=
  ⟨(C7_decline_default_and_reprompt stubRunner "windows" resetFirewallFix "" []
      (by decide) (by decide)).1 (Or.inl (by decide)),
   (C7_decline_default_and_reprompt stubRunner "windows" resetFirewallFix "x" ["s"]
      (by decide) (by decide)).2 (by decide)⟩

/-- Commands that all exit 0 are dispatched in order and execution
continues past them, whatever comes after. -/
lemma runCommands_ok_prefix (runner : Cmd → RunOutcome) (base : FixResult) :
    ∀ pre rest outs, (∀ cc ∈ pre, ∃ o e, runner cc = RunOutcome.completed 0 o e) →
      ∃ outs2,
        runCommands runner base (pre ++ rest) outs =
          ((runCommands runner base rest outs2).1,
            pre ++ (runCommands runner base rest outs2).2) := by
  intro pre
  induction pre with
  | nil =>
    intro rest outs _
    exact ⟨outs, by simp⟩
  | cons cc pre ih =>
    intro rest outs hp
    obtain ⟨o, e, hc⟩ := hp cc (List.mem_cons_self _ _)
    obtain ⟨outs2, heq⟩ :=
      ih rest (outs ++ [commandRecord cc o]) (fun x hx => hp x (List.mem_cons_of_mem _ hx))
    refine ⟨outs2, ?_⟩
    rw [List.cons_append, runCommands, hc]
    cases cc with
    | toks ts => simp [heq]
    | str s => simp [heq]

/-- C8: an approved or non-destructive action executes its platform
commands in list order; the first command completing with nonzero exit
aborts the run, marking the action failed with that command's stderr in
the error text — unless the failing command is a token-list command whose
lowercased first token contains `timeout` (the delay-utility allow-failure
convention), in which case the failure is tolerated and the remaining
commands still run. -/
theorem C8_stop_at_first_nonexempt_failure :
    (∀ (runner : Cmd → RunOutcome) (inputs : List String) (osType : String)
        (cfg : FixConfig) (pre post : List Cmd) (cB : Cmd) (code : Int)
        (out err : String) (t0 : String) (ts : List String),
      assocGet cfg.name destructiveOperations = none →
      (assocGet osType cfg.commandsByPlatform).getD [] = pre ++ cB :: post →
      (∀ cc ∈ pre, ∃ o e, runner cc = RunOutcome.completed 0 o e) →
      runner cB = RunOutcome.completed code out err →
      code ≠ 0 →
      cB = Cmd.toks (t0 :: ts) →
      strContainsSub (pyLowerStr t0) "timeout" = false →
      (attemptFix runner inputs osType cfg false).result.success = false ∧
      (attemptFix runner inputs osType cfg false).result.error =
        "Command failed: " ++ err ∧
      (attemptFix runner inputs osType cfg false).executed = pre ++ [cB]) ∧
    (∀ (runner : Cmd → RunOutcome) (base : FixResult) (rest : List Cmd)
        (outs : List String) (code : Int) (out err : String)
        (t0 : String) (ts : List String),
      runner (Cmd.toks (t0 :: ts)) = RunOutcome.completed code out err →
      code ≠ 0 →
      strContainsSub (pyLowerStr t0) "timeout" = true →
      runCommands runner base (Cmd.toks (t0 :: ts) :: rest) outs =
        ((runCommands runner base rest
            (outs ++ [commandRecord (Cmd.toks (t0 :: ts)) out])).1,
          Cmd.toks (t0 :: ts) ::
            (runCommands runner base rest
              (outs ++ [commandRecord (Cmd.toks (t0 :: ts)) out])).2)) := by
  constructor
  · intro runner inputs osType cfg pre post cB code out err t0 ts
    intro hnd hcmd hpre hfail hcode htoks hexempt
    have hne : (pre ++ cB :: post).isEmpty = false := by cases pre <;> rfl
    obtain ⟨outs2, heq⟩ := runCommands_ok_prefix runner (baseFixResult cfg false)
      pre (cB :: post) [] hpre
    have hstep : runCommands runner (baseFixResult cfg false) (cB :: post) outs2 =
        ({ baseFixResult cfg false with error := "Command failed: " ++ err }, [cB]) := by
      subst htoks
      rw [runCommands, hfail]
      simp [hcode, hexempt]
    have hfix : attemptFix runner inputs osType cfg false =
        ⟨(runCommands runner (baseFixResult cfg false) (pre ++ cB :: post) []).1,
         (runCommands runner (baseFixResult cfg false) (pre ++ cB :: post) []).2, 0⟩ := by
      simp [attemptFix, hcmd, hnd, hne]
    rw [hfix, heq, hstep]
    refine ⟨?_, ?_, ?_⟩ <;> simp [baseFixResult]
  · intro runner base rest outs code out err t0 ts hfail hcode hexempt
    rw [runCommands, hfail]
    simp [hcode, hexempt]

/-- A non-destructive two-command action: an echo then a failing command. -/
def seqFix : FixConfig :=
  ⟨"flush_dns_cache", "Flush DNS cache", some 1, true,
   [("linux", [.toks ["echo", "ok"], .toks ["false"]])]⟩

/-- A collaborator under which the echo succeeds and `false` exits 1. -/
def failingRunner : Cmd → RunOutcome
  | .toks ["echo", "ok"] => .completed 0 "ok" ""
  | .toks ["false"] => .completed 1 "" "exit status 1"
  | _ => .completed 0 "" ""

/-- A collaborator under which the Windows delay command `timeout 2`
reports a nonzero exit, as it does without input redirection. -/
def timeoutRunner : Cmd → RunOutcome
  | .toks ["timeout", "2"] => .completed 1 "" "input redirection is not supported"
  | _ => .completed 0 "" ""

/-- Witness for C8: `[cmdA(exit 0), cmdB(exit 1)]` stops after cmdB, the
action is recorded failed, and cmdB's stderr is captured in the error;
while a failing `timeout 2` is tolerated and the run still succeeds. -/
theorem C8_stop_at_first_nonexempt_failure_witness :
    ((attemptFix failingRunner [] "linux" seqFix false).result.success = false ∧
      (attemptFix failingRunner [] "linux" seqFix false).result.error =
        "Command failed: " ++ "exit status 1" ∧
      (attemptFix failingRunner [] "linux" seqFix false).executed =
        [Cmd.toks ["echo", "ok"]] ++ [Cmd.toks ["false"]]) ∧
    ((runCommands timeoutRunner (baseFixResult seqFix false)
        [Cmd.toks ["timeout", "2"]] []).1.success = true ∧
      (runCommands timeoutRunner (baseFixResult seqFix false)
        [Cmd.toks ["timeout", "2"]] []).2 = [Cmd.toks ["timeout", "2"]]) := by
  constructor
  · exact C8_stop_at_first_nonexempt_failure.1 failingRunner [] "linux" seqFix
      [Cmd.toks ["echo", "ok"]] [] (Cmd.toks ["false"]) 1 "" "exit status 1" "false" []
      (by decide) (by decide)
      (by intro cc hcc
          simp only [List.mem_singleton] at hcc
          subst hcc
          exact ⟨"ok", "", rfl⟩)
      rfl (by decide) rfl (by decide)
  · have h := C8_stop_at_first_nonexempt_failure.2 timeoutRunner
      (baseFixResult seqFix false) [] [] 1 ""
      "input redirection is not supported" "timeout" ["2"] rfl (by decide) (by decide)
    rw [h]
    exact ⟨rfl, rfl⟩

/-- Every `runCommands` outcome keeps the base record's name. -/
lemma runCommands_result_name (runner : Cmd → RunOutcome) (base : FixResult) :
    ∀ cmds outs, ((runCommands runner base cmds outs).1).name = base.name := by
  intro cmds
  induction cmds with
  | nil => intro outs; rfl
  | cons cmd rest ih =>
    intro outs
    rw [runCommands]
    cases hr : runner cmd with
    | raised msg => rfl
    | completed code sout serr =>
      cases cmd with
      | toks ts =>
        cases ts with
        | nil => by_cases hc : code = 0 <;> simp [hc, ih]
        | cons t0 tr =>
          by_cases hc : code = 0 <;>
            cases ht : strContainsSub (pyLowerStr t0) "timeout" <;>
              simp [hc, ht, ih]
      | str s => by_cases hc : code = 0 <;> simp [hc, ih]

/-- The initial fix record carries the action's name. -/
lemma baseFixResult_name (cfg : FixConfig) (dryRun : Bool) :
    (baseFixResult cfg dryRun).name = cfg.name := rfl

/-- Every `_attempt_fix` outcome records the action's own name. -/
lemma attemptFix_result_name (runner : Cmd → RunOutcome) (inputs : List String)
    (osType : String) (cfg : FixConfig) (dryRun : Bool) :
    (attemptFix runner inputs osType cfg dryRun).result.name = cfg.name := by
  rw [attemptFix]
  by_cases h1 : ((assocGet osType cfg.commandsByPlatform).getD []).isEmpty
  · simp [h1, baseFixResult_name]
  · by_cases h2 : (assocGet cfg.name destructiveOperations).isSome ∧ ¬ dryRun
    · simp only [h1, h2, if_true, if_false, Bool.false_eq_true]
      rcases hn : confirmLoop inputs with ⟨d, n⟩
      cases d <;> simp [hn, baseFixResult_name, runCommands_result_name]
    · by_cases h3 : dryRun
      · simp [h1, h2, h3, baseFixResult_name, runCommands_result_name]
      · have h4 : ¬ (assocGet cfg.name destructiveOperations).isSome = true :=
          fun hs => h2 ⟨hs, h3⟩
        simp [h1, h3, h4, baseFixResult_name, runCommands_result_name]

/-- The pass records, in order, one result per attempted fix. -/
lemma runFixPass_attempted_names (runner : Cmd → RunOutcome) (osType : String)
    (dryRun : Bool) :
    ∀ cfgs inputs acc,
      ((runFixPass runner osType dryRun cfgs inputs acc).1.attempted.map
          (fun fr => fr.name)) =
        acc.attempted.map (fun fr => fr.name) ++ cfgs.map (fun cfg => cfg.name) := by
  intro cfgs
  induction cfgs with
  | nil => intro inputs acc; simp [runFixPass]
  | cons cfg rest ih =>
    intro inputs acc
    rw [runFixPass, ih]
    simp [attemptFix_result_name]

/-- C9: no individual action outcome — command failure, collaborator
exception (timeout, missing executable, exhausted input), or user decline —
ever aborts the rest of the pass: for every behavior of the collaborators,
every action in the list is attempted and contributes exactly one FixResult
record, in order and under its own name. -/
theorem C9_every_action_gets_a_record (runner : Cmd → RunOutcome)
    (osType : String) (dryRun : Bool) (cfgs : List FixConfig)
    (inputs : List String) :
    ((runFixPass runner osType dryRun cfgs inputs emptySession).1.attempted.map
        (fun fr => fr.name)) = cfgs.map (fun cfg => cfg.name) ∧
    (runFixPass runner osType dryRun cfgs inputs emptySession).1.attempted.length =
      cfgs.length := by
  have h := runFixPass_attempted_names runner osType dryRun cfgs inputs emptySession
  simp only [emptySession, List.map_nil, List.nil_append] at h
  refine ⟨h, ?_⟩
  have := congrArg List.length h
  simpa using this
